import Mathlib

/-!
Verification of the bitchatter semantic-retrieval core against its
natural-language specification.

The development shallowly embeds the Python sources:
  - `app/utils/vector_db.py`  (class FAISSVectorDB: search / save / load / stats)
  - `app/services/intent_matcher.py` (class IntentMatcher)
  - `app/services/rag_service.py` (RAGService.format_context)
  - `app/api/v1/routes/intent_routes.py` (query validation prelude)

Machine floats are modelled by `ℚ` (exact arithmetic); the embedding model
(SentenceTransformer) is an external collaborator and is passed as an
oracle `Encoder := String → Option Vec`, where `none` models an encoding
failure (EmbeddingError).  The FAISS flat-L2 index is a third-party
dependency whose code is not in the repository; it is modelled from the
specification's VectorIndex contract (§4.2): exhaustive squared-Euclidean
distance, ascending order, ties broken by lower insertion position,
truncated to the requested number of neighbours.
-/

/-- An embedding vector (`numpy` float32 row), modelled over `ℚ`. -/
abbrev Vec := List ℚ

/-- One metadata record, as built by `build_index_from_intents`
(`vector_db.py` lines 274-281): the dict
`{'tag': tag, 'pattern': pattern, 'responses': responses, 'type': 'pattern'}`.
The Python key `type` is a Lean keyword and is embedded as `rtype`. -/
structure Rec where
  tag : String
  pattern : String
  responses : List String
  rtype : String
deriving Repr, DecidableEq

/-- The FAISS `IndexFlatL2` object: its dimension and stored vectors,
in insertion order.  `ntotal` is the stored-vector count. -/
structure FaissIndex where
  d : Int
  vectors : List Vec
deriving Repr, DecidableEq

/-- `index.ntotal` — number of stored vectors. -/
def FaissIndex.ntotal (idx : FaissIndex) : Nat := idx.vectors.length

/-- The embedding model oracle (`SentenceTransformer.encode` on a single
text).  `none` models an encoding failure (EmbeddingError); the model is
deterministic, so the oracle is a function. -/
abbrev Encoder := String → Option Vec

/-- State of a `FAISSVectorDB` object (`vector_db.py` lines 23-35):
`model_name`, `dimension`, the optional FAISS index (None until
`create_index`/`load`), and the metadata list. -/
structure FAISSVectorDB where
  model_name : String
  dimension : Int
  index : Option FaissIndex
  metadata : List Rec
deriving Repr, DecidableEq

/-- Squared Euclidean (L2) distance between two vectors, the metric of
`faiss.IndexFlatL2`. -/
def l2sq (u v : Vec) : ℚ :=
  ((u.zip v).map (fun p => (p.1 - p.2) * (p.1 - p.2))).sum

/-- Comparison used to order FAISS results: ascending distance, ties
broken by lower index position (deterministic, per spec §4.2). -/
def pairLE (a b : ℚ × Nat) : Bool :=
  decide (a.1 < b.1 ∨ (a.1 = b.1 ∧ a.2 ≤ b.2))

/-- Insert one (distance, position) pair into an ordered list. -/
def insertPair (a : ℚ × Nat) : List (ℚ × Nat) → List (ℚ × Nat)
  | [] => [a]
  | b :: bs => if pairLE a b then a :: b :: bs else b :: insertPair a bs

/-- Sort (distance, position) pairs by `pairLE` (insertion sort; the
keys (distance, position) are pairwise distinct, so the result is the
unique sorted arrangement). -/
def sortPairs : List (ℚ × Nat) → List (ℚ × Nat)
  | [] => []
  | a :: as => insertPair a (sortPairs as)

/-- Distances of the query vector to every stored vector, paired with
the vector's insertion position, starting at position `j`. -/
def distancesFrom (qv : Vec) : List Vec → Nat → List (ℚ × Nat)
  | [], _ => []
  | v :: vs, j => (l2sq qv v, j) :: distancesFrom qv vs (j + 1)

/-- Modelled from the spec (§4.2 VectorIndex contract) because the FAISS
library is an external dependency whose code is not in the repository:
`index.search(q, k)` on an `IndexFlatL2` performs an exhaustive exact
squared-L2 scan and returns the `k` nearest stored vectors as
(distance, position) pairs, ascending by distance, ties broken by lower
position. -/
def FaissIndex.indexSearch (idx : FaissIndex) (qv : Vec) (k : Nat) :
    List (ℚ × Nat) :=
  (sortPairs (distancesFrom qv idx.vectors 0)).take k

/-- The similarity score mapping of `vector_db.py` line 143:
`similarity = 1 / (1 + distance)`. -/
def scoreOfDistance (dist : ℚ) : ℚ := 1 / (1 + dist)

/-- One search result dict (`vector_db.py` lines 136-145):
`{'rank': i+1, 'metadata': ..., 'score': ..., 'distance': ...}`.
Every call site in the repository passes `return_scores=True` (the
default), so `score`/`distance` are always present. -/
structure Hit where
  rank : Nat
  metadata : Rec
  score : ℚ
  distance : ℚ
deriving Repr, DecidableEq

/-- The result-building loop of `FAISSVectorDB.search` (lines 133-146):
`for i, (distance, idx) in enumerate(zip(distances[0], indices[0])):`
with the guard `if idx < len(self.metadata)`; `i` counts all pairs, so a
skipped pair still advances the rank counter.  `metadata[idx].copy()` is
a value copy here; its shallowness is modelled separately (see the
PyRec heap model below). -/
def buildHits (md : List Rec) : List (ℚ × Nat) → Nat → List Hit
  | [], _ => []
  | (dist, j) :: rest, i =>
    match md.get? j with
    | some r =>
        { rank := i + 1, metadata := r,
          score := scoreOfDistance dist, distance := dist }
        :: buildHits md rest (i + 1)
    | none => buildHits md rest (i + 1)

/-- Search failure: the only exception `FAISSVectorDB.search` itself can
raise is an encoding failure inside `encode_texts`. -/
inductive SearchErr where
  | embeddingError
deriving Repr, DecidableEq

/-- `FAISSVectorDB.search` (`vector_db.py` lines 102-148): returns `[]`
when the index is absent or empty (before encoding); otherwise encodes
the query, asks the index for `min(k, ntotal)` neighbours, and builds
the result dicts, skipping positions outside the metadata list. -/
def FAISSVectorDB.search (db : FAISSVectorDB) (enc : Encoder) (q : String)
    (k : Nat) : Except SearchErr (List Hit) :=
  match db.index with
  | none => .ok []
  | some idx =>
    if idx.ntotal = 0 then .ok []
    else
      match enc q with
      | none => .error .embeddingError
      | some qv =>
        .ok (buildHits db.metadata (idx.indexSearch qv (min k idx.ntotal)) 0)

/-- Mirrors the control flow of `FAISSVectorDB.search` up to the call of
`encode_texts` (lines 119-124): the query text reaches the embedding
step exactly when an index exists and is nonempty — no emptiness or
blank-query check on the text occurs before encoding. -/
def FAISSVectorDB.searchReachesEncode (db : FAISSVectorDB) : Bool :=
  match db.index with
  | none => false
  | some idx => decide (idx.ntotal ≠ 0)

/-! ## Persistence (`FAISSVectorDB.save` / `FAISSVectorDB.load`) -/

/-- The config artifact written by `save` (lines 177-181):
`{'model_name': ..., 'dimension': ..., 'total_vectors': ...}` as JSON. -/
structure VConfig where
  model_name : String
  dimension : Int
  total_vectors : Int
deriving Repr, DecidableEq

/-- The three artifact slots of one on-disk bundle (`faiss.index`,
`metadata.pkl`, `config.json`); `none` models a missing or unreadable
file.  The binary formats (`faiss.write_index`, `pickle`) are opaque and
modelled as exact round-trip serialisation of the in-memory values. -/
structure BundleFS where
  indexFile : Option FaissIndex
  metadataFile : Option (List Rec)
  configFile : Option VConfig
deriving Repr, DecidableEq

/-- `FAISSVectorDB.save` (lines 150-184): raises
`ValueError("No index to save")` when no index exists, before touching
the filesystem; otherwise writes the index, the metadata, and a config
whose `total_vectors` is `self.index.ntotal` read at the moment of the
call.  Returned as (outcome, resulting filesystem); on the error path
the filesystem is returned unchanged, since the raise precedes every
write. -/
def FAISSVectorDB.save (db : FAISSVectorDB) (fs : BundleFS) :
    Except String Unit × BundleFS :=
  match db.index with
  | none => (.error "No index to save", fs)
  | some idx =>
    (.ok (),
     { indexFile := some idx,
       metadataFile := some db.metadata,
       configFile := some
         { model_name := db.model_name,
           dimension := db.dimension,
           total_vectors := (idx.ntotal : Int) } })

/-- Load failure: a missing/unreadable artifact file.  `load` performs
no validation of the artifact contents, so no other failure exists. -/
inductive LoadErr where
  | fileError
deriving Repr, DecidableEq

/-- `FAISSVectorDB.load` (lines 186-212): reads the config (copying
`model_name` and `dimension` into the object and re-instantiating the
encoder), then the index, then the metadata.  No field of the config is
validated and no count comparison is made. -/
def FAISSVectorDB.load (_db : FAISSVectorDB) (fs : BundleFS) :
    Except LoadErr FAISSVectorDB :=
  match fs.configFile with
  | none => .error .fileError
  | some cfg =>
    match fs.indexFile with
    | none => .error .fileError
    | some idx =>
      match fs.metadataFile with
      | none => .error .fileError
      | some md =>
        .ok { model_name := cfg.model_name,
              dimension := cfg.dimension,
              index := some idx,
              metadata := md }

/-! ## IntentMatcher (`app/services/intent_matcher.py`) -/

/-- State of an `IntentMatcher` (lines 20-43): the similarity threshold,
the optional vector database, and the `_loaded` flag. -/
structure IntentMatcher where
  threshold : ℚ
  vector_db : Option FAISSVectorDB
  loaded : Bool
deriving Repr, DecidableEq

/-- `IntentMatcher.is_loaded` (lines 73-75):
`self._loaded and self.vector_db is not None`. -/
def IntentMatcher.is_loaded (m : IntentMatcher) : Bool :=
  m.loaded && m.vector_db.isSome

/-- `IntentMatcher.match_intent` (lines 77-118) on the default
`return_all=False` path, the only one exercised in the repository:
returns `None` when the matcher is not loaded; searches; returns `None`
on an empty result or an exception (the `except` block swallows every
error and returns `None`); else returns the first hit iff its score is
at least the threshold. -/
def IntentMatcher.match_intent (m : IntentMatcher) (enc : Encoder)
    (q : String) (k : Nat) : Option Hit :=
  if m.is_loaded = false then none
  else
    match m.vector_db with
    | none => none
    | some db =>
      match db.search enc q k with
      | .error _ => none
      | .ok [] => none
      | .ok (best :: _) =>
        if m.threshold ≤ best.score then some best else none

/-- `IntentMatcher.search_intents` (lines 166-197): returns `[]` when
not loaded or on an exception; otherwise the search results, filtered by
`min_score` when one is given. -/
def IntentMatcher.search_intents (m : IntentMatcher) (enc : Encoder)
    (q : String) (k : Nat) (min_score : Option ℚ) : List Hit :=
  if m.is_loaded = false then []
  else
    match m.vector_db with
    | none => []
    | some db =>
      match db.search enc q k with
      | .error _ => []
      | .ok results =>
        match min_score with
        | none => results
        | some ms => results.filter (fun r => ms ≤ r.score)

/-! ## API route validation (`app/api/v1/routes/intent_routes.py`) -/

/-- Request body of `POST /intent/match` as the route reads it:
`data.get('query')` (absent key modelled by `none`), `data.get('k', 1)`
and `data.get('threshold', 0.5)` already defaulted. -/
structure MatchReqBody where
  query : Option String
  k : Nat
  threshold : ℚ
deriving Repr, DecidableEq

/-- An `APIException(message, status_code)` raised by a route. -/
structure APIException where
  message : String
  status_code : Nat
deriving Repr, DecidableEq

/-- Python's `str.strip()` with no argument: remove leading and trailing
whitespace characters, modelled directly over the character list. -/
def pyStrip (s : String) : String :=
  ⟨((s.data.dropWhile Char.isWhitespace).reverse.dropWhile
      Char.isWhitespace).reverse⟩

/-- The `match_intent` route handler (`intent_routes.py` lines 84-129):
rejects a missing body or missing `query` key (400), strips the query
and rejects it if empty (400), rejects an unloaded matcher (503), sets
the matcher threshold from the request, and answers with
`matched`/`intent` from `IntentMatcher.match_intent`. -/
def match_intent_route (body : Option MatchReqBody) (m : IntentMatcher)
    (enc : Encoder) : Except APIException (Bool × Option Hit) :=
  match body with
  | none => .error { message := "Query is required", status_code := 400 }
  | some data =>
    match data.query with
    | none => .error { message := "Query is required", status_code := 400 }
    | some q0 =>
      let q := pyStrip q0
      if q = "" then
        .error { message := "Query cannot be empty", status_code := 400 }
      else if m.is_loaded = false then
        .error { message := "Vector database not available. Please ensure data is loaded.", status_code := 503 }
      else
        match ({ m with threshold := data.threshold
               } : IntentMatcher).match_intent enc q data.k with
        | some hit => .ok (true, some hit)
        | none => .ok (false, none)

/-! ## Context assembly (`RAGService.format_context`) -/

/-- Model of Python's `'{:.2f}'.format` on a nonnegative rational:
scale by 100, round (half away from zero), and print with two decimal
digits.  The exact rounding mode of binary floats cannot differ on any
value a claim here evaluates. -/
def fmt2 (q : ℚ) : String :=
  let n : Int := (q * 100 + 1 / 2).floor
  let ip := n / 100
  let fp := (n % 100).toNat
  toString ip ++ "." ++ (if fp < 10 then "0" else "") ++ toString fp

/-- The responses of one record that are not yet in the seen set
(`rag_service.py` line 117):
`[r for r in responses if r not in seen_responses]`. -/
def uniqueNew (seen : List String) (rs : List String) : List String :=
  rs.filter (fun r => !(seen.contains r))

/-- The data of one emitted context block (`rag_service.py` lines
119-123): the enumeration index, the hit's score, the record's tag and
pattern, and `unique_responses[0]` — the response actually emitted. -/
structure CtxBlock where
  ctxIndex : Nat
  score : ℚ
  tag : String
  pattern : String
  chosen : String
deriving Repr, DecidableEq

/-- The loop of `RAGService.format_context` (lines 109-124): walk the
results with a 1-based counter; for each, keep the responses not yet in
`seen_responses`; if any survive, emit a block carrying the first
surviving response and add ALL surviving responses to `seen_responses`
(`seen_responses.update(unique_responses)`). -/
def formatBlocks : List Hit → Nat → List String → List CtxBlock
  | [], _, _ => []
  | h :: rest, i, seen =>
    let md := h.metadata
    match uniqueNew seen md.responses with
    | [] => formatBlocks rest (i + 1) seen
    | u :: us =>
      { ctxIndex := i, score := h.score, tag := md.tag,
        pattern := md.pattern, chosen := u }
      :: formatBlocks rest (i + 1) (seen ++ u :: us)

/-- The strings one block contributes to `context_parts` (lines
119-123); the `Related Query` line is emitted only for a nonempty
pattern. -/
def renderBlock (b : CtxBlock) : List String :=
  ["\n[Context " ++ toString b.ctxIndex ++ "] (Relevance: "
     ++ fmt2 b.score ++ ")",
   "Topic: " ++ b.tag]
  ++ (if b.pattern = "" then [] else ["Related Query: " ++ b.pattern])
  ++ ["Information: " ++ b.chosen]

/-- `RAGService.format_context` (lines 93-126): sentinel on an empty
input; otherwise the joined block lines, or a second sentinel when every
hit was dropped. -/
def format_context (results : List Hit) : String :=
  if results.isEmpty then
    "No specific information found in the knowledge base for this query."
  else
    let parts := ((formatBlocks results 1 []).map renderBlock).flatten
    if parts.isEmpty then "No specific information found."
    else String.intercalate "\n" parts

/-- Follows the claim's words, for comparison with `formatBlocks`: drop
only the response strings already EMITTED by an earlier hit (one per
block), not every surviving response of earlier hits. -/
def formatBlocksClaimed : List Hit → Nat → List String → List CtxBlock
  | [], _, _ => []
  | h :: rest, i, emitted =>
    let md := h.metadata
    match uniqueNew emitted md.responses with
    | [] => formatBlocksClaimed rest (i + 1) emitted
    | u :: _ =>
      { ctxIndex := i, score := h.score, tag := md.tag,
        pattern := md.pattern, chosen := u }
      :: formatBlocksClaimed rest (i + 1) (emitted ++ [u])

/-- Follows the claim's words: `format_context` with the emitted-only
deduplication of `formatBlocksClaimed`. -/
def format_contextClaimed (results : List Hit) : String :=
  if results.isEmpty then
    "No specific information found in the knowledge base for this query."
  else
    let parts := ((formatBlocksClaimed results 1 []).map renderBlock).flatten
    if parts.isEmpty then "No specific information found."
    else String.intercalate "\n" parts

/-! ## Shallow-copy model for the hit record (C8)

`search` hands each caller `self.metadata[idx].copy()` (line 138) — a
Python `dict.copy()`, which duplicates the top-level key slots but keeps
the same object references as values.  To express the aliasing, records
are re-modelled with the nested `responses` list held in a heap of
lists, addressed by `respRef`. -/

/-- A metadata dict whose `responses` value is a reference into the
list heap. -/
structure PyRec where
  tag : String
  pattern : String
  respRef : Nat
  rtype : String
deriving Repr, DecidableEq

/-- The heap of Python list objects holding response strings. -/
abbrev RespHeap := List (List String)

/-- Dereference a record's `responses` list in the heap. -/
def readResponses (heap : RespHeap) (r : PyRec) : List String :=
  heap.getD r.respRef []

/-- Python `dict.copy()` on a record: a new dict with the same top-level
values — in particular the SAME `responses` reference (shallow copy). -/
def dictCopy (r : PyRec) : PyRec :=
  { tag := r.tag, pattern := r.pattern, respRef := r.respRef,
    rtype := r.rtype }

/-- The record placed in a search hit for the stored record at position
`j` (`vector_db.py` line 138): `self.metadata[idx].copy()`. -/
def hitRecordOf (md : List PyRec) (j : Nat) : Option PyRec :=
  (md.get? j).map dictCopy

/-- In-place mutation of the responses list a record points at:
`rec['responses'].append(s)`. -/
def appendResponse (heap : RespHeap) (r : PyRec) (s : String) : RespHeap :=
  heap.set r.respRef (readResponses heap r ++ [s])

/-! ## Helper lemmas -/

theorem length_insertPair (a : ℚ × Nat) (l : List (ℚ × Nat)) :
    (insertPair a l).length = l.length + 1 := by
  induction l with
  | nil => rfl
  | cons b bs ih =>
    simp only [insertPair]
    split
    · simp
    · simp [ih]

theorem length_sortPairs (l : List (ℚ × Nat)) :
    (sortPairs l).length = l.length := by
  induction l with
  | nil => rfl
  | cons a as ih => simp [sortPairs, length_insertPair, ih]

theorem mem_insertPair {x a : ℚ × Nat} {l : List (ℚ × Nat)}
    (hx : x ∈ insertPair a l) : x = a ∨ x ∈ l := by
  induction l with
  | nil => simpa [insertPair] using hx
  | cons b bs ih =>
    simp only [insertPair] at hx
    split at hx
    · simpa using hx
    · rcases List.mem_cons.1 hx with h | h
      · exact Or.inr (List.mem_cons.2 (Or.inl h))
      · rcases ih h with h' | h'
        · exact Or.inl h'
        · exact Or.inr (List.mem_cons.2 (Or.inr h'))

theorem mem_sortPairs {x : ℚ × Nat} {l : List (ℚ × Nat)}
    (hx : x ∈ sortPairs l) : x ∈ l := by
  induction l with
  | nil => simp [sortPairs] at hx
  | cons a as ih =>
    rcases mem_insertPair hx with h | h
    · simp [h]
    · exact List.mem_cons.2 (Or.inr (ih h))

theorem length_distancesFrom (qv : Vec) (vs : List Vec) (j : Nat) :
    (distancesFrom qv vs j).length = vs.length := by
  induction vs generalizing j with
  | nil => rfl
  | cons v vs ih => simp [distancesFrom, ih]

theorem mem_distancesFrom {qv : Vec} {vs : List Vec} {j : Nat}
    {p : ℚ × Nat} (hp : p ∈ distancesFrom qv vs j) :
    p.2 < j + vs.length ∧ ∃ v ∈ vs, p.1 = l2sq qv v := by
  induction vs generalizing j with
  | nil => simp [distancesFrom] at hp
  | cons v vs ih =>
    simp only [distancesFrom, List.mem_cons] at hp
    rcases hp with h | h
    · subst h
      exact ⟨by simp [Nat.lt_add_of_pos_right], ⟨v, by simp⟩⟩
    · obtain ⟨hlt, w, hw, hval⟩ := ih h
      refine ⟨?_, ⟨w, List.mem_cons.2 (Or.inr hw), hval⟩⟩
      simp only [List.length_cons]
      omega

theorem length_indexSearch (idx : FaissIndex) (qv : Vec) (k : Nat) :
    (idx.indexSearch qv k).length = min k idx.ntotal := by
  simp [FaissIndex.indexSearch, List.length_take, length_sortPairs,
    length_distancesFrom, FaissIndex.ntotal]

theorem mem_indexSearch {idx : FaissIndex} {qv : Vec} {k : Nat}
    {p : ℚ × Nat} (hp : p ∈ idx.indexSearch qv k) :
    p.2 < idx.ntotal ∧ ∃ v ∈ idx.vectors, p.1 = l2sq qv v := by
  have h1 : p ∈ sortPairs (distancesFrom qv idx.vectors 0) :=
    List.mem_of_mem_take hp
  have h2 := mem_distancesFrom (mem_sortPairs h1)
  simpa [FaissIndex.ntotal] using h2

theorem length_buildHits (md : List Rec) (pairs : List (ℚ × Nat)) (i : Nat)
    (hall : ∀ p ∈ pairs, p.2 < md.length) :
    (buildHits md pairs i).length = pairs.length := by
  induction pairs generalizing i with
  | nil => rfl
  | cons p rest ih =>
    obtain ⟨dist, j⟩ := p
    have hj : j < md.length := hall (dist, j) (List.mem_cons_self _ _)
    simp only [buildHits]
    cases hmd : md.get? j with
    | none =>
      have := List.get?_eq_none.1 hmd
      omega
    | some r =>
      simp [ih (i + 1) (fun q hq => hall q (List.mem_cons.2 (Or.inr hq)))]

theorem mem_buildHits {md : List Rec} {pairs : List (ℚ × Nat)} {i : Nat}
    {h : Hit} (hh : h ∈ buildHits md pairs i) :
    ∃ p ∈ pairs, h.distance = p.1 ∧ h.score = scoreOfDistance p.1 := by
  induction pairs generalizing i with
  | nil => simp [buildHits] at hh
  | cons p rest ih =>
    obtain ⟨dist, j⟩ := p
    simp only [buildHits] at hh
    cases hmd : md.get? j with
    | none =>
      rw [hmd] at hh
      obtain ⟨q, hq, hval⟩ := ih hh
      exact ⟨q, List.mem_cons.2 (Or.inr hq), hval⟩
    | some r =>
      rw [hmd] at hh
      rcases List.mem_cons.1 hh with h' | h'
      · subst h'
        exact ⟨(dist, j), List.mem_cons_self _ _, rfl, rfl⟩
      · obtain ⟨q, hq, hval⟩ := ih h'
        exact ⟨q, List.mem_cons.2 (Or.inr hq), hval⟩

theorem l2sq_nonneg (u v : Vec) : 0 ≤ l2sq u v := by
  apply List.sum_nonneg
  intro x hx
  obtain ⟨p, _, hp⟩ := List.mem_map.1 hx
  rw [← hp]
  exact mul_self_nonneg _

theorem scoreOfDistance_pos {d : ℚ} (hd : 0 ≤ d) : 0 < scoreOfDistance d := by
  have h1 : (0 : ℚ) < 1 + d := by linarith
  exact div_pos one_pos h1

theorem scoreOfDistance_le_one {d : ℚ} (hd : 0 ≤ d) :
    scoreOfDistance d ≤ 1 := by
  have h1 : (0 : ℚ) < 1 + d := by linarith
  rw [scoreOfDistance, div_le_one h1]
  linarith

theorem scoreOfDistance_strict_anti {d1 d2 : ℚ} (h1 : 0 ≤ d1)
    (h12 : d1 < d2) : scoreOfDistance d2 < scoreOfDistance d1 :=
  one_div_lt_one_div_of_lt (by linarith) (by linarith)

theorem search_ok_length {db : FAISSVectorDB} {idx : FaissIndex}
    {enc : Encoder} {q : String} {qv : Vec} (k : Nat)
    (hidx : db.index = some idx)
    (hmd : db.metadata.length = idx.ntotal) (henc : enc q = some qv) :
    ∃ hits, db.search enc q k = .ok hits ∧
      hits.length = min k idx.ntotal := by
  by_cases h0 : idx.ntotal = 0
  · exact ⟨[], by simp [FAISSVectorDB.search, hidx, h0], by simp [h0]⟩
  · refine ⟨buildHits db.metadata (idx.indexSearch qv (min k idx.ntotal)) 0,
      ?_, ?_⟩
    · simp [FAISSVectorDB.search, hidx, h0, henc]
    · rw [length_buildHits, length_indexSearch, min_assoc, min_self]
      intro p hp
      rw [hmd]
      exact (mem_indexSearch hp).1

theorem search_empty {db : FAISSVectorDB} {enc : Encoder} {q : String}
    {k : Nat}
    (h : db.index = none ∨ ∃ idx, db.index = some idx ∧ idx.ntotal = 0) :
    db.search enc q k = .ok [] := by
  rcases h with h | ⟨idx, hidx, h0⟩
  · simp [FAISSVectorDB.search, h]
  · simp [FAISSVectorDB.search, hidx, h0]

theorem search_hit_shape {db : FAISSVectorDB} {enc : Encoder} {q : String}
    {k : Nat} {hits : List Hit} {h : Hit}
    (hok : db.search enc q k = .ok hits) (hmem : h ∈ hits) :
    h.score = scoreOfDistance h.distance ∧ 0 ≤ h.distance := by
  cases hidx : db.index with
  | none =>
    rw [search_empty (Or.inl hidx)] at hok
    cases hok
    simp at hmem
  | some idx =>
    by_cases h0 : idx.ntotal = 0
    · rw [search_empty (Or.inr ⟨idx, hidx, h0⟩)] at hok
      cases hok
      simp at hmem
    · cases henc : enc q with
      | none => simp [FAISSVectorDB.search, hidx, h0, henc] at hok
      | some qv =>
        have hok' : buildHits db.metadata
            (idx.indexSearch qv (min k idx.ntotal)) 0 = hits := by
          simpa [FAISSVectorDB.search, hidx, h0, henc] using hok
        rw [← hok'] at hmem
        obtain ⟨p, hp, hdist, hscore⟩ := mem_buildHits hmem
        obtain ⟨-, v, _, hval⟩ := mem_indexSearch hp
        refine ⟨by rw [hscore, hdist], ?_⟩
        rw [hdist, hval]
        exact l2sq_nonneg _ _

/-! ## Concrete fixtures for witnesses and counterexamples -/

def wRecA : Rec := ⟨"hours_info", "hours", ["We are open 9-5."], "pattern"⟩

def wRecB : Rec :=
  ⟨"location_info", "location", ["Main campus."], "pattern"⟩

def wRecC : Rec :=
  ⟨"fees_info", "fees", ["See the fee schedule."], "pattern"⟩

def wIdx : FaissIndex := ⟨2, [[0, 0], [3, 4], [1, 0]]⟩

def wDb : FAISSVectorDB :=
  ⟨"all-MiniLM-L6-v2", 2, some wIdx, [wRecA, wRecB, wRecC]⟩

def wDbEmpty : FAISSVectorDB := ⟨"all-MiniLM-L6-v2", 2, none, []⟩

def wEnc : Encoder := fun _ => some [1, 0]

def wEnc2 : Encoder := fun _ => some [5, 5]

def wHitTop : Hit := ⟨1, wRecC, 1, 0⟩

def wHit2 : Hit := ⟨2, wRecA, 1 / 2, 1⟩

def wHits : List Hit := [wHitTop, wHit2]

def wMatcher : IntentMatcher := ⟨1 / 2, some wDb, true⟩

/-! ## Claim theorems -/

/-- C2: for every loaded index with `n` stored vectors (metadata aligned,
per the §3 invariant) and every `k ≥ 0`, `search` returns exactly
`min(k, n)` hits when the query encodes; and on an absent or empty index
it returns `[]` without error, whatever the encoder does. -/
theorem search_k_bounding :
    (∀ (db : FAISSVectorDB) (idx : FaissIndex) (enc : Encoder)
       (q : String) (qv : Vec) (k : Nat),
       db.index = some idx → db.metadata.length = idx.ntotal →
       enc q = some qv →
       ∃ hits, db.search enc q k = .ok hits ∧
         hits.length = min k idx.ntotal)
    ∧ (∀ (db : FAISSVectorDB) (enc : Encoder) (q : String) (k : Nat),
       (db.index = none ∨ ∃ idx, db.index = some idx ∧ idx.ntotal = 0) →
       db.search enc q k = .ok []) :=
  ⟨fun _ _ _ _ _ k hidx hmd henc => search_ok_length k hidx hmd henc,
   fun _ _ _ _ h => search_empty h⟩

/-- Witness instantiating C2 at a concrete three-vector index (for both
`k = 2` and `k = 0`) and at a concrete index-less database. -/
theorem search_k_bounding_witness :
    (∃ hits, wDb.search wEnc "query" 2 = .ok hits ∧
       hits.length = min 2 wIdx.ntotal)
    ∧ (∃ hits, wDb.search wEnc "query" 0 = .ok hits ∧
       hits.length = min 0 wIdx.ntotal)
    ∧ wDbEmpty.search wEnc "query" 3 = .ok [] :=
  ⟨search_k_bounding.1 wDb wIdx wEnc "query" [1, 0] 2 rfl (by decide) rfl,
   search_k_bounding.1 wDb wIdx wEnc "query" [1, 0] 0 rfl (by decide) rfl,
   search_k_bounding.2 wDbEmpty wEnc "query" 3 (Or.inl rfl)⟩

/-- C3: the score mapping is `score(d) = 1/(1+d)`: positive and at most
`1` for `d ≥ 0`, equal to `1` at `0`, strictly decreasing, and every hit
produced by `search` carries `score = 1/(1+distance)` with a nonnegative
distance and a score in `(0, 1]`. -/
theorem score_bounds :
    (∀ d : ℚ, 0 ≤ d → 0 < scoreOfDistance d ∧ scoreOfDistance d ≤ 1)
    ∧ scoreOfDistance 0 = 1
    ∧ (∀ d1 d2 : ℚ, 0 ≤ d1 → d1 < d2 →
        scoreOfDistance d2 < scoreOfDistance d1)
    ∧ (∀ (db : FAISSVectorDB) (enc : Encoder) (q : String) (k : Nat)
        (hits : List Hit) (h : Hit),
        db.search enc q k = .ok hits → h ∈ hits →
        h.score = scoreOfDistance h.distance ∧ 0 ≤ h.distance ∧
          0 < h.score ∧ h.score ≤ 1) := by
  refine ⟨fun d hd => ⟨scoreOfDistance_pos hd, scoreOfDistance_le_one hd⟩,
    by norm_num [scoreOfDistance],
    fun d1 d2 h1 h12 => scoreOfDistance_strict_anti h1 h12,
    fun db enc q k hits h hok hmem => ?_⟩
  obtain ⟨hs, hd⟩ := search_hit_shape hok hmem
  refine ⟨hs, hd, ?_, ?_⟩
  · rw [hs]; exact scoreOfDistance_pos hd
  · rw [hs]; exact scoreOfDistance_le_one hd

/-- Witness instantiating C3 at `d = 3`, at the pair `1 < 2`, and at a
concrete hit returned by `search`. -/
theorem score_bounds_witness :
    (0 < scoreOfDistance 3 ∧ scoreOfDistance 3 ≤ 1)
    ∧ scoreOfDistance 2 < scoreOfDistance 1
    ∧ (wHit2.score = scoreOfDistance wHit2.distance ∧ 0 ≤ wHit2.distance ∧
        0 < wHit2.score ∧ wHit2.score ≤ 1) :=
  ⟨score_bounds.1 3 (by norm_num),
   score_bounds.2.2.1 1 2 (by norm_num) (by norm_num),
   score_bounds.2.2.2 wDb wEnc "query" 2 wHits wHit2
     (by norm_num [FAISSVectorDB.search, wDb, wEnc, wIdx, FaissIndex.ntotal,
        FaissIndex.indexSearch, distancesFrom, l2sq, sortPairs, insertPair,
        pairLE, buildHits, scoreOfDistance, wHits, wHitTop, wHit2, wRecA,
        wRecB, wRecC])
     (by simp [wHits])⟩

/-- C6: threshold monotonicity of `match_intent` — a hit returned at
threshold `t` is returned unchanged at any lower threshold. -/
theorem match_intent_threshold_mono :
    ∀ (m : IntentMatcher) (enc : Encoder) (q : String) (k : Nat)
      (h : Hit) (t2 : ℚ),
      m.match_intent enc q k = some h → t2 < m.threshold →
      ({ m with threshold := t2 } : IntentMatcher).match_intent enc q k
        = some h := by
  intro m enc q k h t2 hm ht
  by_cases hload : m.is_loaded = false
  · simp [IntentMatcher.match_intent, hload] at hm
  · have hlo : m.loaded = true := by
      have hl : m.is_loaded = true := by
        cases hios : m.is_loaded
        · exact absurd hios hload
        · rfl
      rw [IntentMatcher.is_loaded, Bool.and_eq_true] at hl
      exact hl.1
    cases hdb : m.vector_db with
    | none => simp [IntentMatcher.match_intent, hload, hdb] at hm
    | some db =>
      cases hs : db.search enc q k with
      | error e =>
        simp [IntentMatcher.match_intent, hload, hdb, hs] at hm
      | ok results =>
        cases results with
        | nil => simp [IntentMatcher.match_intent, hload, hdb, hs] at hm
        | cons best rest =>
          simp [IntentMatcher.match_intent, hload, hdb, hs] at hm
          obtain ⟨hts, rfl⟩ := hm
          have hle : t2 ≤ best.score := le_of_lt (lt_of_lt_of_le ht hts)
          simp [IntentMatcher.match_intent, IntentMatcher.is_loaded, hdb,
            hlo, hs, hle]

/-- Witness instantiating C6: a hit matched at threshold `1/2` is still
matched at threshold `1/4`. -/
theorem match_intent_threshold_mono_witness :
    ({ wMatcher with threshold := 1 / 4 } : IntentMatcher).match_intent
      wEnc "query" 5 = some wHitTop :=
  match_intent_threshold_mono wMatcher wEnc "query" 5 wHitTop (1 / 4)
    (by norm_num [IntentMatcher.match_intent, IntentMatcher.is_loaded,
      wMatcher, FAISSVectorDB.search, wDb, wEnc, wIdx, FaissIndex.ntotal,
      FaissIndex.indexSearch, distancesFrom, l2sq, sortPairs, insertPair,
      pairLE, buildHits, scoreOfDistance, wHitTop, wRecA, wRecB, wRecC])
    (by norm_num [wMatcher])

def wBadCfg : VConfig := ⟨"", 0, 5⟩

def wBadIdx : FaissIndex := ⟨1, [[0]]⟩

def wBadFS : BundleFS := ⟨some wBadIdx, some [], some wBadCfg⟩

def wFSFull : BundleFS := ⟨some wBadIdx, some [wRecA], some wBadCfg⟩

def wUnloaded : IntentMatcher := ⟨1 / 2, none, false⟩

def wNoMatch : IntentMatcher := ⟨99 / 100, some wDb, true⟩

/-- C1 (counterexample): a bundle violating every condition the claim
lists — nonpositive dimension, empty model identifier, index count `1`
differing from the config's stored count `5`, metadata length `0`
differing from the index count — on which `load` nevertheless completes
successfully instead of failing with a typed error. -/
theorem load_validation_cex :
    (wBadCfg.dimension ≤ 0 ∧ wBadCfg.model_name = ""
      ∧ (wBadIdx.ntotal : Int) ≠ wBadCfg.total_vectors
      ∧ ([] : List Rec).length ≠ wBadIdx.ntotal)
    ∧ FAISSVectorDB.load wDbEmpty wBadFS =
        .ok { model_name := "", dimension := 0, index := some wBadIdx,
              metadata := [] } :=
  ⟨⟨by decide, rfl, by decide, by decide⟩, rfl⟩

/-- C1 (amended): `load` performs no validation at all — on any bundle
whose three artifacts are readable it completes successfully, copying
`model_name` and `dimension` from the config and installing the stored
index and metadata unconditionally, whether or not the dimension is
positive, the model identifier nonempty, or the vector counts
consistent. -/
theorem load_reads_without_validation :
    ∀ (db : FAISSVectorDB) (cfg : VConfig) (idx : FaissIndex)
      (md : List Rec),
      FAISSVectorDB.load db
          { indexFile := some idx, metadataFile := some md,
            configFile := some cfg } =
        .ok { model_name := cfg.model_name, dimension := cfg.dimension,
              index := some idx, metadata := md } :=
  fun _ _ _ _ => rfl

/-- C4 (counterexample): calling `match_intent` or `search_intents` on
an unloaded matcher returns plain `none` / `[]` — no `NotLoadedError`
exists — and a loaded matcher whose best hit falls below the threshold
returns the very same `none`, so the two outcomes are
indistinguishable. -/
theorem not_loaded_silent_cex :
    wUnloaded.is_loaded = false
    ∧ wUnloaded.match_intent wEnc "query" 5 = none
    ∧ wUnloaded.search_intents wEnc "query" 10 none = []
    ∧ wNoMatch.is_loaded = true
    ∧ wNoMatch.match_intent wEnc2 "query" 5 = none := by
  refine ⟨rfl, rfl, rfl, rfl, ?_⟩
  norm_num [IntentMatcher.match_intent, IntentMatcher.is_loaded,
    wNoMatch, FAISSVectorDB.search, wDb, wEnc2, wIdx, FaissIndex.ntotal,
    FaissIndex.indexSearch, distancesFrom, l2sq, sortPairs, insertPair,
    pairLE, buildHits, scoreOfDistance, wRecA, wRecB, wRecC]

/-- C4 (amended): while the matcher is not loaded, `match_intent`
returns `None` and `search_intents` returns the empty list — the same
values a normal no-match / no-results outcome produces — rather than
failing with a `NotLoadedError`. -/
theorem not_loaded_returns_empty :
    ∀ (m : IntentMatcher) (enc : Encoder) (q : String) (k : Nat)
      (ms : Option ℚ),
      m.is_loaded = false →
      m.match_intent enc q k = none ∧ m.search_intents enc q k ms = [] := by
  intro m enc q k ms h
  constructor <;>
    simp [IntentMatcher.match_intent, IntentMatcher.search_intents, h]

/-- Witness instantiating C4 (amended) at a concrete unloaded matcher. -/
theorem not_loaded_returns_empty_witness :
    wUnloaded.match_intent wEnc "q" 5 = none
    ∧ wUnloaded.search_intents wEnc "q" 5 none = [] :=
  not_loaded_returns_empty wUnloaded wEnc "q" 5 none rfl

/-- C5: loading the bundle written by `save` from a database with a
nonempty index and aligned metadata reproduces the same index (hence the
same vector count), the same metadata in the same order, and search
results identical to the pre-save state for every encoder, query and
`k`. -/
theorem save_load_round_trip :
    ∀ (db db0 : FAISSVectorDB) (fs : BundleFS) (idx : FaissIndex),
      db.index = some idx → idx.ntotal ≠ 0 →
      db.metadata.length = idx.ntotal →
      ∃ db2, FAISSVectorDB.load db0 (db.save fs).2 = .ok db2
        ∧ db2.index = db.index ∧ db2.metadata = db.metadata
        ∧ ∀ (enc : Encoder) (q : String) (k : Nat),
            db2.search enc q k = db.search enc q k := by
  intro db db0 fs idx hidx _ _
  refine ⟨db, ?_, rfl, rfl, fun _ _ _ => rfl⟩
  cases db with
  | mk mn dim i md =>
    have hi : i = some idx := hidx
    subst hi
    rfl

/-- Witness instantiating C5 at a concrete three-vector database saved
over a filesystem that already holds different artifacts. -/
theorem save_load_round_trip_witness :
    ∃ db2, FAISSVectorDB.load wDbEmpty (wDb.save wFSFull).2 = .ok db2
      ∧ db2.index = wDb.index ∧ db2.metadata = wDb.metadata
      ∧ ∀ (enc : Encoder) (q : String) (k : Nat),
          db2.search enc q k = wDb.search enc q k :=
  save_load_round_trip wDb wDbEmpty wFSFull wIdx rfl (by decide) (by decide)

/-- C10: `save` on a database whose index was never created raises
`ValueError("No index to save")` and writes none of the three artifacts
— the filesystem, including whatever files already sit at the target
paths, is returned unchanged. -/
theorem save_without_index :
    ∀ (db : FAISSVectorDB) (fs : BundleFS), db.index = none →
      db.save fs = (.error "No index to save", fs) := by
  intro db fs h
  simp [FAISSVectorDB.save, h]

/-- Witness instantiating C10 at a concrete index-less database over a
filesystem already holding artifacts at all three paths. -/
theorem save_without_index_witness :
    wDbEmpty.save wFSFull = (.error "No index to save", wFSFull) :=
  save_without_index wDbEmpty wFSFull rfl

theorem not_mem_of_mem_uniqueNew {seen rs : List String} {x : String}
    (hx : x ∈ uniqueNew seen rs) : x ∉ seen := by
  have h := (List.mem_filter.1 hx).2
  simp at h
  exact h

def cRec1 : Rec := ⟨"t1", "p1", ["A", "B"], "pattern"⟩

def cRec2 : Rec := ⟨"t2", "p2", ["B", "C"], "pattern"⟩

def cHit1 : Hit := ⟨1, cRec1, 9 / 10, 1 / 9⟩

def cHit2 : Hit := ⟨2, cRec2, 1 / 2, 1⟩

/-- C7 (counterexample): with hit 1 carrying responses `["A", "B"]` and
hit 2 carrying `["B", "C"]`, the code emits `"A"` then `"C"` — `"B"` is
dropped from hit 2 even though it was never emitted, because the loop
marks every surviving response of a hit as seen — whereas the claim's
emitted-only deduplication would emit `"A"` then `"B"`; so the assembly
differs from the claim's description at this input. -/
theorem format_context_dedup_cex :
    ((formatBlocks [cHit1, cHit2] 1 []).map CtxBlock.chosen = ["A", "C"])
    ∧ ((formatBlocksClaimed [cHit1, cHit2] 1 []).map CtxBlock.chosen
        = ["A", "B"])
    ∧ formatBlocks [cHit1, cHit2] 1 []
        ≠ formatBlocksClaimed [cHit1, cHit2] 1 [] := by
  have h1 : (formatBlocks [cHit1, cHit2] 1 []).map CtxBlock.chosen
      = ["A", "C"] := rfl
  have h2 : (formatBlocksClaimed [cHit1, cHit2] 1 []).map CtxBlock.chosen
      = ["A", "B"] := rfl
  refine ⟨h1, h2, fun h => ?_⟩
  rw [h, h2] at h1
  exact absurd h1 (by decide)

/-- C7 (amended): context assembly walks hits in rank order and, for
each hit, drops every response string already seen — that is, appearing
among the surviving responses of any earlier hit, not merely the ones
actually emitted — then emits one block per hit with a surviving
response, containing its first surviving response; consequently no
response text appears twice in one assembled output (the emitted
responses are pairwise distinct and disjoint from the initial seen
set). -/
theorem format_context_dedup :
    ∀ (hits : List Hit) (i : Nat) (seen : List String),
      ((formatBlocks hits i seen).map CtxBlock.chosen).Nodup
      ∧ ∀ b ∈ formatBlocks hits i seen, b.chosen ∉ seen := by
  intro hits
  induction hits with
  | nil => intro i seen; simp [formatBlocks]
  | cons h rest ih =>
    intro i seen
    cases hu : uniqueNew seen h.metadata.responses with
    | nil =>
      simp only [formatBlocks, hu]
      exact ih (i + 1) seen
    | cons u us =>
      simp only [formatBlocks, hu, List.map_cons, List.nodup_cons,
        List.mem_cons]
      have hrest := ih (i + 1) (seen ++ u :: us)
      have huNew : u ∈ uniqueNew seen h.metadata.responses := by
        rw [hu]; exact List.mem_cons_self _ _
      refine ⟨⟨?_, hrest.1⟩, ?_⟩
      · intro hcontra
        obtain ⟨b, hb, hbu⟩ := List.mem_map.1 hcontra
        apply hrest.2 b hb
        rw [hbu]
        exact List.mem_append.2 (Or.inr (List.mem_cons_self _ _))
      · rintro b (rfl | hb)
        · exact not_mem_of_mem_uniqueNew huNew
        · intro hbseen
          exact hrest.2 b hb (List.mem_append.2 (Or.inl hbseen))

/-- Witness instantiating C7 (amended) at the two-hit counterexample
input: the emitted responses `["A", "C"]` are pairwise distinct, and the
first block's response is not in the (empty) initial seen set. -/
theorem format_context_dedup_witness :
    ((formatBlocks [cHit1, cHit2] 1 []).map CtxBlock.chosen).Nodup
    ∧ (⟨1, cHit1.score, "t1", "p1", "A"⟩ : CtxBlock).chosen
        ∉ ([] : List String) :=
  ⟨(format_context_dedup [cHit1, cHit2] 1 []).1,
   (format_context_dedup [cHit1, cHit2] 1 []).2
     ⟨1, cHit1.score, "t1", "p1", "A"⟩
     (by simp [formatBlocks, uniqueNew, cHit1, cHit2, cRec1, cRec2])⟩

def wPyRec : PyRec := ⟨"hours_info", "hours", 0, "pattern"⟩

def wHeap : RespHeap := [["A"]]

/-- C8 (counterexample): the hit record for stored position 0 is a
shallow `dict.copy()` sharing the `responses` reference; appending a
string to the copy's responses list changes the responses read through
the store's own record, so the store is NOT unchanged under caller
mutation of the hit's nested responses list. -/
theorem shallow_copy_cex :
    hitRecordOf [wPyRec] 0 = some (dictCopy wPyRec)
    ∧ readResponses wHeap wPyRec = ["A"]
    ∧ readResponses (appendResponse wHeap (dictCopy wPyRec) "X") wPyRec
        = ["A", "X"]
    ∧ readResponses (appendResponse wHeap (dictCopy wPyRec) "X") wPyRec
        ≠ readResponses wHeap wPyRec := by
  exact ⟨rfl, rfl, rfl, by decide⟩

/-- C8 (amended): the record carried by a search hit is a shallow copy:
its top-level fields are duplicated into a fresh dict, but the nested
`responses` list is shared by reference with the stored record, so an
in-place mutation of the hit record's responses list is visible through
the MetadataStore's record (only top-level rebinding is isolated). -/
theorem shallow_copy_aliasing :
    ∀ (md : List PyRec) (heap : RespHeap) (j : Nat) (r : PyRec)
      (s : String),
      md.get? j = some r →
      hitRecordOf md j = some (dictCopy r)
      ∧ (dictCopy r).respRef = r.respRef
      ∧ (r.respRef < heap.length →
          readResponses (appendResponse heap (dictCopy r) s) r
            = readResponses heap r ++ [s]) := by
  intro md heap j r s hj
  refine ⟨by rw [hitRecordOf, hj]; rfl, rfl, fun hr => ?_⟩
  simp [readResponses, appendResponse, dictCopy,
    List.getD_eq_getElem?_getD, List.getElem?_set_self hr]

/-- Witness instantiating C8 (amended) at a one-record store. -/
theorem shallow_copy_aliasing_witness :
    hitRecordOf [wPyRec] 0 = some (dictCopy wPyRec)
    ∧ (dictCopy wPyRec).respRef = wPyRec.respRef
    ∧ readResponses (appendResponse wHeap (dictCopy wPyRec) "B") wPyRec
        = readResponses wHeap wPyRec ++ ["B"] := by
  have h := shallow_copy_aliasing [wPyRec] wHeap 0 wPyRec "B" rfl
  exact ⟨h.1, h.2.1, h.2.2 (by decide)⟩

def wDbOne : FAISSVectorDB :=
  ⟨"all-MiniLM-L6-v2", 1, some ⟨1, [[3]]⟩, [wRecA]⟩

def wEncWS : Encoder := fun s => if s = " " then some [0] else none

/-- C9 (counterexample): the core performs no blank-query check — on a
loaded nonempty index, `search` with the whitespace-only query `" "`
reaches the embedding step and returns a normal hit list instead of
rejecting the query with an `EmptyQueryError` (no such error exists in
the code). -/
theorem core_blank_query_cex :
    wDbOne.searchReachesEncode = true
    ∧ wDbOne.search wEncWS " " 1 =
        .ok [{ rank := 1, metadata := wRecA, score := 1 / 10,
               distance := 9 }] := by
  refine ⟨rfl, ?_⟩
  norm_num [FAISSVectorDB.search, wDbOne, wEncWS, FaissIndex.ntotal,
    FaissIndex.indexSearch, distancesFrom, l2sq, sortPairs, insertPair,
    pairLE, buildHits, scoreOfDistance, wRecA]

/-- C9 (amended): blank/whitespace-only queries are rejected only at the
API route layer: each intent route strips the query and fails with
`APIException("Query cannot be empty", 400)` before any matcher or
embedder call; the core's own `search` performs no such check and passes
the text on to the embedding step whenever the index is nonempty. -/
theorem empty_query_route_check :
    (∀ (data : MatchReqBody) (m : IntentMatcher) (enc : Encoder)
       (q0 : String),
       data.query = some q0 → pyStrip q0 = "" →
       match_intent_route (some data) m enc =
         .error { message := "Query cannot be empty", status_code := 400 })
    ∧ ∀ (db : FAISSVectorDB) (idx : FaissIndex),
        db.index = some idx → idx.ntotal ≠ 0 →
        db.searchReachesEncode = true := by
  constructor
  · intro data m enc q0 hq htrim
    simp [match_intent_route, hq, htrim]
  · intro db idx hidx hne
    simp [FAISSVectorDB.searchReachesEncode, hidx, hne]

def wReqWS : MatchReqBody := ⟨some "   ", 1, 1 / 2⟩

/-- Witness instantiating C9 (amended): a request whose query is three
spaces is rejected with the 400 error, and the concrete one-vector
database reaches the encoding step. -/
theorem empty_query_route_check_witness :
    match_intent_route (some wReqWS) wMatcher wEnc =
      .error { message := "Query cannot be empty", status_code := 400 }
    ∧ wDbOne.searchReachesEncode = true :=
  ⟨empty_query_route_check.1 wReqWS wMatcher wEnc "   " rfl rfl,
   empty_query_route_check.2 wDbOne ⟨1, [[3]]⟩ rfl (by decide)⟩
